import Mathlib

/-!
# Verification of the DuckLake python reading client

A shallow embedding of `ducklake_python/ducklake_client.py`.

The client reads a versioned lakehouse catalog (relations holding schemas,
tables, columns, data files and delete files, each row carrying a validity
interval `[begin_snapshot, end_snapshot)`), resolves the set of data files
visible at a snapshot, reads each file through an external columnar decoder,
applies positional delete files, and concatenates the per-file results.

Modelling choices:
* The SQL catalog is a `Catalog` record of row lists; `WHERE` clauses become
  `List.filter`, `ORDER BY` becomes `List.insertionSort` (a stable sort; SQL
  leaves tie order unspecified), and the `LEFT JOIN` against the valid delete
  files becomes `joinDeletes`.
* A pyarrow table is `PaTable`: a list of column names together with a
  row-major list of rows (cells are `Value`s).  `pyarrow.parquet.read_table`
  is `pqReadTable` over an abstract `FileStore` (the filesystem); column
  projection keeps the requested order, as the decoder does.
* Python exceptions become `Except Err`; each `Err` constructor records the
  exception the source raises at that point (including the
  `UnboundLocalError` that the empty-table branch of `_read_table` raises
  when a non-empty projection is supplied).
* `Path.absolute()` normalisation against the process working directory is a
  filesystem concern outside the embedding; paths are plain strings and the
  relative-path case produces exactly the `data_root/schema/table/path` join.
-/

namespace Ducklake

/-- A cell value inside a columnar file (parquet values as decoded by the
external reader). -/
inductive Value where
  | int (i : Int)
  | str (s : String)
  | null
deriving DecidableEq, Repr

/-- The errors (python exceptions) the client can raise. -/
inductive Err where
  /-- `ValueError("No snapshots found in the catalog")`. -/
  | noSnapshots
  /-- `ValueError(f"Schema '{name}' not found")`. -/
  | schemaNotFound (name : String)
  /-- `ValueError(f"Table '{name}' not found in schema ...")`. -/
  | tableNotFound (name : String)
  /-- `ValueError("Relative path provided but no data_path configured")`. -/
  | configError
  /-- python `UnboundLocalError`: a local variable read before assignment. -/
  | unboundLocalVar (name : String)
  /-- the parquet reader cannot find the file. -/
  | missingFile (path : String)
  /-- a requested column name is absent (projection failure / `KeyError`). -/
  | missingColumn (name : String)
  /-- `pa.concat_tables` on tables with differing schemas. -/
  | schemaMismatch
deriving DecidableEq, Repr

/-- A row of the `ducklake_schema` relation. -/
structure SchemaRow where
  schema_id : Nat
  schema_name : String
  begin_snapshot : Int
  end_snapshot : Option Int
deriving DecidableEq, Repr

/-- A row of the `ducklake_table` relation. -/
structure TableRow where
  table_id : Nat
  table_name : String
  schema_id : Nat
  begin_snapshot : Int
  end_snapshot : Option Int
deriving DecidableEq, Repr

/-- A row of the `ducklake_column` relation. -/
structure ColumnRow where
  column_id : Nat
  column_name : String
  column_type : String
  column_order : Nat
  table_id : Nat
  parent_column : Option Nat
  begin_snapshot : Int
  end_snapshot : Option Int
deriving DecidableEq, Repr

/-- A row of the `ducklake_data_file` relation. -/
structure DataFileRow where
  data_file_id : Nat
  path : String
  path_is_relative : Bool
  table_id : Nat
  file_order : Nat
  begin_snapshot : Int
  end_snapshot : Option Int
deriving DecidableEq, Repr

/-- A row of the `ducklake_delete_file` relation.  The catalog stores a
relativity flag for the delete file as well, but the client's SQL only ever
selects `data_file_id` and `path` from this relation. -/
structure DeleteFileRow where
  data_file_id : Nat
  path : String
  path_is_relative : Bool
  begin_snapshot : Int
  end_snapshot : Option Int
deriving DecidableEq, Repr

/-- The catalog database the client queries. -/
structure Catalog where
  snapshots : List Int
  schemas : List SchemaRow
  tables : List TableRow
  columns : List ColumnRow
  data_files : List DataFileRow
  delete_files : List DeleteFileRow
deriving DecidableEq, Repr

/-- The validity predicate appearing in every metadata query:
`:snapshot_id >= begin_snapshot AND (:snapshot_id < end_snapshot OR
end_snapshot IS NULL)`. -/
def coversSnapshot (s : Int) (b : Int) (e : Option Int) : Bool :=
  decide (b ≤ s) &&
    (match e with
     | none => true
     | some e2 => decide (s < e2))

/-- The `TableColumn` dataclass. -/
structure TableColumn where
  column_id : Nat
  column_name : String
  column_type : String
  column_order : Nat
deriving DecidableEq, Repr

/-- The `DataFile` dataclass: one row of the `get_data_files` result. -/
structure DataFile where
  data_file_path : String
  delete_file_path : Option String
  path_is_relative : Bool
deriving DecidableEq, Repr

/-- An in-memory columnar table (`pyarrow.Table`), row-major. -/
structure PaTable where
  names : List String
  rows : List (List Value)
deriving DecidableEq, Repr

/-- Index of a named column in a table (`table[name]` lookup). -/
def columnIndex (t : PaTable) (name : String) : Option Nat :=
  t.names.findIdx? (fun n => n == name)

/-- Resolve every requested column name to its index; a missing name raises,
as the decoder's projection does. -/
def columnIndices (t : PaTable) : List String → Except Err (List Nat)
  | [] => Except.ok []
  | n :: ns =>
    match columnIndex t n with
    | none => Except.error (Err.missingColumn n)
    | some i =>
      match columnIndices t ns with
      | Except.error e => Except.error e
      | Except.ok is2 => Except.ok (i :: is2)

/-- Project a table onto the requested columns, in the requested order,
keeping every row. -/
def selectColumns (t : PaTable) (cs : List String) : Except Err PaTable :=
  match columnIndices t cs with
  | Except.error e => Except.error e
  | Except.ok idxs =>
    Except.ok { names := cs, rows := t.rows.map (fun r => idxs.map (fun i => r.getD i Value.null)) }

/-- The filesystem of parquet files, as the external decoder sees it. -/
def FileStore := String → Option PaTable

/-- `pyarrow.parquet.read_table(path, columns=...)`: decode a file, with
projection pushed down. -/
def pqReadTable (fs : FileStore) (path : String) (columns : Option (List String)) :
    Except Err PaTable :=
  match fs path with
  | none => Except.error (Err.missingFile path)
  | some t =>
    match columns with
    | none => Except.ok t
    | some cs => selectColumns t cs

/-- The client: the catalog its engine is connected to and the optional
configured `data_path`. -/
structure DucklakeClient where
  catalog : Catalog
  data_path : Option String

/-- `get_current_snapshot_id`: `max(snapshot_id)` over `ducklake_snapshot`,
raising when the relation is empty. -/
def get_current_snapshot_id (c : DucklakeClient) : Except Err Int :=
  match c.catalog.snapshots with
  | [] => Except.error Err.noSnapshots
  | s :: rest => Except.ok (rest.foldl max s)

/-- The `if snapshot_id is None: snapshot_id = self.get_current_snapshot_id()`
prologue every operation starts with. -/
def resolveSnapshot (c : DucklakeClient) : Option Int → Except Err Int
  | none => get_current_snapshot_id c
  | some s => Except.ok s

/-- The rows of the `list_schemas` query at an already-resolved snapshot. -/
def listSchemasAt (cat : Catalog) (s : Int) : List (Nat × String) :=
  (cat.schemas.filter (fun r => coversSnapshot s r.begin_snapshot r.end_snapshot)).map
    (fun r => (r.schema_id, r.schema_name))

/-- `list_schemas`. -/
def list_schemas (c : DucklakeClient) (snapshot_id : Option Int) :
    Except Err (List (Nat × String)) :=
  match resolveSnapshot c snapshot_id with
  | Except.error e => Except.error e
  | Except.ok s => Except.ok (listSchemasAt c.catalog s)

/-- The rows of the `list_tables` query at an already-resolved snapshot. -/
def listTablesAt (cat : Catalog) (schema_id : Nat) (s : Int) : List (Nat × String) :=
  (cat.tables.filter (fun r =>
      r.schema_id == schema_id && coversSnapshot s r.begin_snapshot r.end_snapshot)).map
    (fun r => (r.table_id, r.table_name))

/-- `list_tables`. -/
def list_tables (c : DucklakeClient) (schema_id : Nat) (snapshot_id : Option Int) :
    Except Err (List (Nat × String)) :=
  match resolveSnapshot c snapshot_id with
  | Except.error e => Except.error e
  | Except.ok s => Except.ok (listTablesAt c.catalog schema_id s)

/-- The rows of the `get_table_columns` query at an already-resolved
snapshot: top-level valid columns of the table, ordered by `column_order`. -/
def tableColumnsAt (cat : Catalog) (table_id : Nat) (s : Int) : List TableColumn :=
  ((cat.columns.filter (fun r =>
        r.table_id == table_id && r.parent_column == none
          && coversSnapshot s r.begin_snapshot r.end_snapshot)).insertionSort
      (fun a b => a.column_order ≤ b.column_order)).map
    (fun r =>
      { column_id := r.column_id, column_name := r.column_name,
        column_type := r.column_type, column_order := r.column_order })

/-- `get_table_columns`. -/
def get_table_columns (c : DucklakeClient) (table_id : Nat) (snapshot_id : Option Int) :
    Except Err (List TableColumn) :=
  match resolveSnapshot c snapshot_id with
  | Except.error e => Except.error e
  | Except.ok s => Except.ok (tableColumnsAt c.catalog table_id s)

/-- The delete-file rows valid at the snapshot (the filtered subselect of the
`get_data_files` query). -/
def activeDeleteRows (cat : Catalog) (s : Int) : List DeleteFileRow :=
  cat.delete_files.filter (fun r => coversSnapshot s r.begin_snapshot r.end_snapshot)

/-- The `LEFT JOIN ... ON data.data_file_id = del.data_file_id` step for one
data-file row: no matching valid delete row yields a single result row with a
null delete path; each matching row yields a result row carrying that delete
row's path.  The result rows take `path_is_relative` from the data file. -/
def joinDeletes (dels : List DeleteFileRow) (d : DataFileRow) : List DataFile :=
  match dels.filter (fun del => del.data_file_id == d.data_file_id) with
  | [] => [{ data_file_path := d.path, delete_file_path := none,
             path_is_relative := d.path_is_relative }]
  | ms => ms.map (fun del =>
      { data_file_path := d.path, delete_file_path := some del.path,
        path_is_relative := d.path_is_relative })

/-- The rows of the `get_data_files` query at an already-resolved snapshot:
valid data files of the table, ordered by `file_order`, left-joined with the
valid delete files. -/
def dataFilesAt (cat : Catalog) (table_id : Nat) (s : Int) : List DataFile :=
  (((cat.data_files.filter (fun r =>
        r.table_id == table_id && coversSnapshot s r.begin_snapshot r.end_snapshot)).insertionSort
      (fun a b => a.file_order ≤ b.file_order)).map
    (joinDeletes (activeDeleteRows cat s))).flatten

/-- `get_data_files`. -/
def get_data_files (c : DucklakeClient) (table_id : Nat) (snapshot_id : Option Int) :
    Except Err (List DataFile) :=
  match resolveSnapshot c snapshot_id with
  | Except.error e => Except.error e
  | Except.ok s => Except.ok (dataFilesAt c.catalog table_id s)

/-- `_resolve_path`: join a relative path under
`data_path / schema_name / table_name`, raise when a relative path arrives
with no `data_path` configured, and pass an absolute path through. -/
def resolve_path (c : DucklakeClient) (path : String) (is_relative : Bool)
    (table_name : String) (schema_name : String) : Except Err String :=
  if is_relative then
    match c.data_path with
    | none => Except.error Err.configError
    | some root =>
      Except.ok (root ++ "/" ++ schema_name ++ "/" ++ table_name ++ "/" ++ path)
  else Except.ok path

/-- `_read_delete_row_ids`: decode the delete file and return the values of
its `pos` column; a decoded file without a `pos` column raises. -/
def read_delete_row_ids (fs : FileStore) (delete_file_path : String) :
    Except Err (List Value) :=
  match pqReadTable fs delete_file_path none with
  | Except.error e => Except.error e
  | Except.ok t =>
    match columnIndex t "pos" with
    | none => Except.error (Err.missingColumn "pos")
    | some i => Except.ok (t.rows.map (fun r => r.getD i Value.null))

/-- The positional delete filter of `_read_table`:
`keep_mask = [i not in delete_row_ids for i in range(len(table))]` followed
by `table.filter(keep_mask)`. -/
def filterDeleted (t : PaTable) (delete_row_ids : List Value) : PaTable :=
  let keep_mask := (List.range t.rows.length).map
    (fun (i : Nat) => !(decide (Value.int (i : Int) ∈ delete_row_ids)))
  { names := t.names,
    rows := (t.rows.zip keep_mask).filterMap (fun p => if p.2 then some p.1 else none) }

/-- One iteration of the data-file loop of `_read_table`: resolve the data
path, decode with the projection pushed down, and when a delete file is
attached resolve it (with the data file's relativity flag), decode its
positions and filter them out. -/
def readOneFile (c : DucklakeClient) (fs : FileStore) (table_name schema_name : String)
    (columns : Option (List String)) (df : DataFile) : Except Err PaTable :=
  match resolve_path c df.data_file_path df.path_is_relative table_name schema_name with
  | Except.error e => Except.error e
  | Except.ok data_path2 =>
    match pqReadTable fs data_path2 columns with
    | Except.error e => Except.error e
    | Except.ok t =>
      match df.delete_file_path with
      | none => Except.ok t
      | some dp =>
        match resolve_path c dp df.path_is_relative table_name schema_name with
        | Except.error e => Except.error e
        | Except.ok delete_path =>
          match read_delete_row_ids fs delete_path with
          | Except.error e => Except.error e
          | Except.ok ids => Except.ok (filterDeleted t ids)

/-- The accumulating `for` loop: read every file, propagating the first
failure (python exception propagation). -/
def readAllFiles (c : DucklakeClient) (fs : FileStore) (table_name schema_name : String)
    (columns : Option (List String)) : List DataFile → Except Err (List PaTable)
  | [] => Except.ok []
  | df :: dfs =>
    match readOneFile c fs table_name schema_name columns df with
    | Except.error e => Except.error e
    | Except.ok t =>
      match readAllFiles c fs table_name schema_name columns dfs with
      | Except.error e => Except.error e
      | Except.ok ts => Except.ok (t :: ts)

/-- `pa.concat_tables`: append the rows of the tables; differing schemas
raise, and so does an empty argument list. -/
def concat_tables : List PaTable → Except Err PaTable
  | [] => Except.error Err.schemaMismatch
  | t :: ts =>
    if ts.all (fun u => u.names == t.names) then
      Except.ok { names := t.names, rows := ((t :: ts).map PaTable.rows).flatten }
    else Except.error Err.schemaMismatch

/-- The tail of `_read_table`: a single table is returned as-is, otherwise
the tables are concatenated. -/
def concatStep : List PaTable → Except Err PaTable
  | [t] => Except.ok t
  | ts => concat_tables ts

/-- The empty-table branch of `_read_table`.  With no projection (or an empty
projection list, which is falsy in python) the valid catalog columns give a
zero-row table; with a non-empty projection the branch reads the local
variable `table_columns` before it is ever assigned and raises
`UnboundLocalError`. -/
def emptyTableResult (c : DucklakeClient) (table_id : Nat) (s : Int)
    (columns : Option (List String)) : Except Err PaTable :=
  match columns with
  | some (_ :: _) => Except.error (Err.unboundLocalVar "table_columns")
  | _ =>
    match get_table_columns c table_id (some s) with
    | Except.error e => Except.error e
    | Except.ok table_columns =>
      Except.ok { names := table_columns.map (fun col => col.column_name), rows := [] }

/-- `_read_table`: resolve the snapshot, list the valid data files, take the
empty-table branch when there are none, otherwise read every file and
concatenate. -/
def read_table_inner (c : DucklakeClient) (fs : FileStore) (table_id : Nat)
    (table_name schema_name : String) (snapshot_id : Option Int)
    (columns : Option (List String)) : Except Err PaTable :=
  match resolveSnapshot c snapshot_id with
  | Except.error e => Except.error e
  | Except.ok s =>
    match get_data_files c table_id (some s) with
    | Except.error e => Except.error e
    | Except.ok data_files =>
      match data_files with
      | [] => emptyTableResult c table_id s columns
      | _ :: _ =>
        match readAllFiles c fs table_name schema_name columns data_files with
        | Except.error e => Except.error e
        | Except.ok arrow_tables => concatStep arrow_tables

/-- `read_table`: resolve the snapshot once, find the first visible schema
with the given name, the first visible table with the given name inside it,
and delegate to `_read_table` at the same snapshot. -/
def read_table (c : DucklakeClient) (fs : FileStore) (schema_name table_name : String)
    (snapshot_id : Option Int) (columns : Option (List String)) : Except Err PaTable :=
  match resolveSnapshot c snapshot_id with
  | Except.error e => Except.error e
  | Except.ok s =>
    match list_schemas c (some s) with
    | Except.error e => Except.error e
    | Except.ok schemas =>
      match schemas.find? (fun p => p.2 == schema_name) with
      | none => Except.error (Err.schemaNotFound schema_name)
      | some (schema_id, _) =>
        match list_tables c schema_id (some s) with
        | Except.error e => Except.error e
        | Except.ok tables =>
          match tables.find? (fun p => p.2 == table_name) with
          | none => Except.error (Err.tableNotFound table_name)
          | some (table_id, _) =>
            read_table_inner c fs table_id table_name schema_name (some s) columns

end Ducklake

namespace Ducklake

/-! ## Helper lemmas -/

/-- Filtering a zipped boolean mask built over `range'` keeps exactly the
entries whose index satisfies the mask, in order. -/
theorem zip_mask_filterMap (keepAt : Nat → Bool) :
    ∀ (rows : List (List Value)) (i : Nat),
      ((rows.zip ((List.range' i rows.length).map keepAt)).filterMap
          (fun p => if p.2 then some p.1 else none))
        = ((List.enumFrom i rows).filter (fun p => keepAt p.1)).map Prod.snd := by
  intro rows
  induction rows with
  | nil => intro i; rfl
  | cons r rs ih =>
    intro i
    simp only [List.length_cons, List.range'_succ, List.map_cons, List.zip_cons_cons,
      List.filterMap_cons, List.enumFrom_cons, List.filter_cons]
    cases h : keepAt i
    · simpa [h] using ih (i + 1)
    · simpa [h] using ih (i + 1)

/-- The rows surviving the positional delete filter are exactly the rows
whose position is not in the deleted-position list, in their original
order. -/
theorem filterDeleted_rows (t : PaTable) (del : List Value) :
    (filterDeleted t del).rows
      = (t.rows.enum.filter (fun p => !(decide (Value.int p.1 ∈ del)))).map Prod.snd := by
  simp only [filterDeleted, List.range_eq_range']
  exact zip_mask_filterMap (fun i => !(decide (Value.int i ∈ del))) t.rows 0

/-- Mapping the `Value.int` constructor preserves and reflects membership. -/
theorem value_int_mem_map (q : Int) (L : List Int) :
    (Value.int q ∈ L.map Value.int) ↔ q ∈ L := by
  simp [List.mem_map]

/-! ## C7 -/

/-- C7: path resolution is a pure function of its inputs: with
`is_relative = true` and a configured data root it returns the join
`data_root / schema_name / table_name / path`; with `is_relative = false` it
returns the path (taken as absolute); with `is_relative = true` and no data
root configured it fails with the configuration error. -/
theorem resolve_path_cases (c : DucklakeClient) (path table_name schema_name : String) :
    (∀ root, c.data_path = some root →
      resolve_path c path true table_name schema_name
        = Except.ok (root ++ "/" ++ schema_name ++ "/" ++ table_name ++ "/" ++ path))
    ∧ resolve_path c path false table_name schema_name = Except.ok path
    ∧ (c.data_path = none →
      resolve_path c path true table_name schema_name = Except.error Err.configError) := by
  refine ⟨fun root hroot => ?_, rfl, fun hnone => ?_⟩
  · simp [resolve_path, hroot]
  · simp [resolve_path, hnone]

/-- C7 witness: the three cases at concrete inputs. -/
theorem resolve_path_cases_witness :
    resolve_path ⟨⟨[], [], [], [], [], []⟩, some "/data"⟩ "f.parquet" true "t" "s"
        = Except.ok "/data/s/t/f.parquet"
    ∧ resolve_path ⟨⟨[], [], [], [], [], []⟩, some "/data"⟩ "/abs/f.parquet" false "t" "s"
        = Except.ok "/abs/f.parquet"
    ∧ resolve_path ⟨⟨[], [], [], [], [], []⟩, none⟩ "f.parquet" true "t" "s"
        = Except.error Err.configError := by
  refine ⟨?_, ?_, ?_⟩
  · exact (resolve_path_cases ⟨⟨[], [], [], [], [], []⟩, some "/data"⟩ "f.parquet" "t" "s").1
      "/data" rfl
  · exact (resolve_path_cases ⟨⟨[], [], [], [], [], []⟩, some "/data"⟩ "/abs/f.parquet" "t" "s").2.1
  · exact (resolve_path_cases ⟨⟨[], [], [], [], [], []⟩, none⟩ "f.parquet" "t" "s").2.2 rfl

/-! ## C2 -/

/-- A catalog holding one schema `s` with one table `t` of columns `a`, `b`
and no data files at all. -/
def emptyTableCatalog : Catalog where
  snapshots := [1]
  schemas := [{ schema_id := 1, schema_name := "s", begin_snapshot := 0, end_snapshot := none }]
  tables := [{ table_id := 1, table_name := "t", schema_id := 1,
               begin_snapshot := 0, end_snapshot := none }]
  columns :=
    [{ column_id := 1, column_name := "a", column_type := "VARCHAR", column_order := 1,
       table_id := 1, parent_column := none, begin_snapshot := 0, end_snapshot := none },
     { column_id := 2, column_name := "b", column_type := "VARCHAR", column_order := 2,
       table_id := 1, parent_column := none, begin_snapshot := 0, end_snapshot := none }]
  data_files := []
  delete_files := []

/-- A client over `emptyTableCatalog`. -/
def emptyTableClient : DucklakeClient where
  catalog := emptyTableCatalog
  data_path := some "/data"

/-- A filesystem with no files at all. -/
def emptyStore : FileStore := fun _ => none

/-- C2 (code bug): on a table with no valid data files, `read_table` does
produce a zero-row result when `columns` is `None`, but with an explicit
non-empty column list the empty-table branch of `_read_table` reads the
local variable `table_columns` before assigning it and raises
`UnboundLocalError` instead of producing a zero-row result. -/
theorem empty_table_projection_unbound_local :
    read_table emptyTableClient emptyStore "s" "t" (some 1) (some ["a"])
        = Except.error (Err.unboundLocalVar "table_columns")
    ∧ read_table emptyTableClient emptyStore "s" "t" (some 1) none
        = Except.ok { names := ["a", "b"], rows := [] } := by
  exact ⟨rfl, rfl⟩

/-! ## C3 -/

/-- C3: filtering a decoded data file with a delete-position list keeps
exactly the rows whose position is not listed, in decode order, and the
out-of-range positions (negative or `≥` the row count) in the list have no
effect (and raise nothing: the filter is a total function). -/
theorem filter_deleted_positions_spec (t : PaTable) (D extra : List Int)
    (hextra : ∀ q ∈ extra, q < 0 ∨ (t.rows.length : Int) ≤ q) :
    (filterDeleted t ((D ++ extra).map Value.int)).names = t.names
    ∧ (filterDeleted t ((D ++ extra).map Value.int)).rows
        = (t.rows.enum.filter (fun p => !(decide ((p.1 : Int) ∈ D)))).map Prod.snd := by
  refine ⟨rfl, ?_⟩
  rw [filterDeleted_rows]
  congr 1
  apply List.filter_congr
  rintro ⟨i, r⟩ hmem
  have hi : i < t.rows.length := by
    have := (List.mem_enumFrom hmem).2.1
    simpa using this
  have : (Value.int i ∈ (D ++ extra).map Value.int) ↔ ((i : Int) ∈ D) := by
    rw [value_int_mem_map, List.mem_append]
    constructor
    · rintro (h | h)
      · exact h
      · exfalso
        have hi2 : (i : Int) < (t.rows.length : Int) := by exact_mod_cast hi
        rcases hextra _ h with h2 | h2 <;> omega
    · exact Or.inl
  simp only [this]

/-- C3 witness: a three-row table with deleted position 1 plus the
out-of-range positions `-1` and `7`. -/
theorem filter_deleted_positions_spec_witness :
    (filterDeleted
        { names := ["a"], rows := [[Value.int 10], [Value.int 11], [Value.int 12]] }
        (([1] ++ [-1, 7]).map Value.int)).names = ["a"]
    ∧ (filterDeleted
        { names := ["a"], rows := [[Value.int 10], [Value.int 11], [Value.int 12]] }
        (([1] ++ [-1, 7]).map Value.int)).rows
        = (([[Value.int 10], [Value.int 11], [Value.int 12]] : List (List Value)).enum.filter
            (fun p => !(decide ((p.1 : Int) ∈ ([1] : List Int))))).map Prod.snd :=
  filter_deleted_positions_spec
    { names := ["a"], rows := [[Value.int 10], [Value.int 11], [Value.int 12]] }
    [1] [-1, 7] (by decide)

end Ducklake

namespace Ducklake

/-! ## Reduction lemmas for the public entry point -/

/-- With an explicit snapshot, `read_table` is name resolution at that
snapshot followed by `_read_table` at that same snapshot. -/
theorem read_table_some_eq (c : DucklakeClient) (fs : FileStore) (sn tn : String)
    (s : Int) (cols : Option (List String)) :
    read_table c fs sn tn (some s) cols =
      match (listSchemasAt c.catalog s).find? (fun p => p.2 == sn) with
      | none => Except.error (Err.schemaNotFound sn)
      | some (schema_id, _) =>
        match (listTablesAt c.catalog schema_id s).find? (fun p => p.2 == tn) with
        | none => Except.error (Err.tableNotFound tn)
        | some (table_id, _) =>
          read_table_inner c fs table_id tn sn (some s) cols := rfl

/-- With no snapshot argument, `read_table` resolves the current snapshot
and then behaves exactly as a call with that snapshot passed explicitly. -/
theorem read_table_none_eq (c : DucklakeClient) (fs : FileStore) (sn tn : String)
    (cols : Option (List String)) :
    read_table c fs sn tn none cols =
      match get_current_snapshot_id c with
      | Except.error e => Except.error e
      | Except.ok s => read_table c fs sn tn (some s) cols := rfl

/-! ## Congruence lemmas -/

/-- `_resolve_path` depends on the client only through its `data_path`. -/
theorem resolve_path_data_path_congr (c c' : DucklakeClient)
    (h : c'.data_path = c.data_path) (path : String) (rel : Bool) (tn sn : String) :
    resolve_path c' path rel tn sn = resolve_path c path rel tn sn := by
  simp only [resolve_path, h]

/-- Reading one data file depends on the client only through its
`data_path`. -/
theorem readOneFile_data_path_congr (c c' : DucklakeClient)
    (h : c'.data_path = c.data_path) (fs : FileStore) (tn sn : String)
    (cols : Option (List String)) (df : DataFile) :
    readOneFile c' fs tn sn cols df = readOneFile c fs tn sn cols df := by
  simp only [readOneFile, resolve_path_data_path_congr c c' h]

/-- Reading a list of data files depends on the client only through its
`data_path`. -/
theorem readAllFiles_data_path_congr (c c' : DucklakeClient)
    (h : c'.data_path = c.data_path) (fs : FileStore) (tn sn : String)
    (cols : Option (List String)) :
    ∀ l, readAllFiles c' fs tn sn cols l = readAllFiles c fs tn sn cols l
  | [] => rfl
  | df :: dfs => by
    simp only [readAllFiles, readOneFile_data_path_congr c c' h,
      readAllFiles_data_path_congr c c' h fs tn sn cols dfs]

/-- `read_table` at an explicit snapshot depends on the client only through
its `data_path` and the results of the four catalog queries. -/
theorem read_table_catalog_congr (c c' : DucklakeClient)
    (hdp : c'.data_path = c.data_path)
    (hsch : ∀ s, listSchemasAt c'.catalog s = listSchemasAt c.catalog s)
    (htbl : ∀ sid s, listTablesAt c'.catalog sid s = listTablesAt c.catalog sid s)
    (hcol : ∀ tid s, tableColumnsAt c'.catalog tid s = tableColumnsAt c.catalog tid s)
    (hdf : ∀ tid s, dataFilesAt c'.catalog tid s = dataFilesAt c.catalog tid s)
    (fs : FileStore) (sn tn : String) (s : Int) (cols : Option (List String)) :
    read_table c' fs sn tn (some s) cols = read_table c fs sn tn (some s) cols := by
  rw [read_table_some_eq, read_table_some_eq, hsch]
  cases hfind : (listSchemasAt c.catalog s).find? (fun p => p.2 == sn) with
  | none => rfl
  | some sp =>
    obtain ⟨sid, nm⟩ := sp
    show (match (listTablesAt c'.catalog sid s).find? (fun p => p.2 == tn) with
          | none => Except.error (Err.tableNotFound tn)
          | some (table_id, _) => read_table_inner c' fs table_id tn sn (some s) cols)
        = (match (listTablesAt c.catalog sid s).find? (fun p => p.2 == tn) with
          | none => Except.error (Err.tableNotFound tn)
          | some (table_id, _) => read_table_inner c fs table_id tn sn (some s) cols)
    rw [htbl]
    cases hfind2 : (listTablesAt c.catalog sid s).find? (fun p => p.2 == tn) with
    | none => rfl
    | some tp =>
      obtain ⟨tid, nm2⟩ := tp
      show read_table_inner c' fs tid tn sn (some s) cols
          = read_table_inner c fs tid tn sn (some s) cols
      simp only [read_table_inner, get_data_files, resolveSnapshot, hdf]
      cases hdfs : dataFilesAt c.catalog tid s with
      | nil =>
        simp only [emptyTableResult]
        cases cols with
        | none => simp only [get_table_columns, resolveSnapshot, hcol]
        | some cs =>
          cases cs with
          | nil => simp only [get_table_columns, resolveSnapshot, hcol]
          | cons a as => rfl
      | cons df dfs =>
        rw [readAllFiles_data_path_congr c c' hdp]

/-! ## C1 -/

/-- C1: one `read_table` call resolves the current snapshot exactly once, at
the start: a call with `snapshot_id = None` behaves exactly like a call with
the resolved current snapshot passed explicitly, and a call with an explicit
snapshot never consults the snapshot relation again — its result is
unchanged under an arbitrary replacement of the snapshot relation, so every
sub-query (schema listing, table listing, data-file listing and the
empty-branch column listing) observes the single snapshot fixed at the
start. -/
theorem read_table_snapshot_resolved_once (c : DucklakeClient) (fs : FileStore)
    (schema_name table_name : String) (columns : Option (List String))
    (s : Int) (hcur : get_current_snapshot_id c = Except.ok s) (L : List Int) :
    read_table c fs schema_name table_name none columns
        = read_table c fs schema_name table_name (some s) columns
    ∧ read_table { catalog := { c.catalog with snapshots := L }, data_path := c.data_path }
          fs schema_name table_name (some s) columns
        = read_table c fs schema_name table_name (some s) columns := by
  constructor
  · rw [read_table_none_eq, hcur]
  · exact read_table_catalog_congr c
      { catalog := { c.catalog with snapshots := L }, data_path := c.data_path }
      rfl (fun _ => rfl) (fun _ _ => rfl) (fun _ _ => rfl) (fun _ _ => rfl)
      fs schema_name table_name s columns

/-- C1 witness: on the example catalog the current snapshot is `1`, the
default call equals the explicit call at `1`, and the explicit call ignores
a replacement of the snapshot relation. -/
theorem read_table_snapshot_resolved_once_witness :
    get_current_snapshot_id emptyTableClient = Except.ok 1
    ∧ (read_table emptyTableClient emptyStore "s" "t" none none
        = read_table emptyTableClient emptyStore "s" "t" (some 1) none
      ∧ read_table
            { catalog := { emptyTableClient.catalog with snapshots := [9, 4] },
              data_path := emptyTableClient.data_path }
            emptyStore "s" "t" (some 1) none
        = read_table emptyTableClient emptyStore "s" "t" (some 1) none) := by
  refine ⟨rfl, ?_⟩
  exact read_table_snapshot_resolved_once emptyTableClient emptyStore "s" "t" none 1 rfl [9, 4]

end Ducklake

namespace Ducklake

/-! ## C6 -/

/-- C6: at a resolved snapshot `s`, `read_table` fails with the
schema-not-found error when no schema row named `schema_name` is visible at
`s`, and fails with the table-not-found error when a schema is resolved but
no table row with the given name is visible in it at `s`.  The file store is
universally quantified and absent from both conclusions: no file is read on
either failure path. -/
theorem read_table_missing_name_errors (c : DucklakeClient) (fs : FileStore)
    (sn tn : String) (cols : Option (List String)) (s : Int) :
    ((∀ r ∈ c.catalog.schemas,
        coversSnapshot s r.begin_snapshot r.end_snapshot = true → r.schema_name ≠ sn) →
      read_table c fs sn tn (some s) cols = Except.error (Err.schemaNotFound sn))
    ∧ (∀ sid nm, (listSchemasAt c.catalog s).find? (fun p => p.2 == sn) = some (sid, nm) →
        (∀ r ∈ c.catalog.tables, r.schema_id = sid →
          coversSnapshot s r.begin_snapshot r.end_snapshot = true → r.table_name ≠ tn) →
        read_table c fs sn tn (some s) cols = Except.error (Err.tableNotFound tn)) := by
  constructor
  · intro h
    rw [read_table_some_eq]
    have hfind : (listSchemasAt c.catalog s).find? (fun p => p.2 == sn) = none := by
      rw [List.find?_eq_none]
      rintro ⟨xid, xnm⟩ hx
      simp only [listSchemasAt, List.mem_map, List.mem_filter] at hx
      obtain ⟨r, ⟨hr, hcov⟩, heq⟩ := hx
      cases heq
      simpa using h r hr hcov
    rw [hfind]
  · intro sid nm hfind htab
    rw [read_table_some_eq, hfind]
    show (match (listTablesAt c.catalog sid s).find? (fun p => p.2 == tn) with
          | none => Except.error (Err.tableNotFound tn)
          | some (table_id, _) => read_table_inner c fs table_id tn sn (some s) cols)
        = Except.error (Err.tableNotFound tn)
    have hfind2 : (listTablesAt c.catalog sid s).find? (fun p => p.2 == tn) = none := by
      rw [List.find?_eq_none]
      rintro ⟨xid, xnm⟩ hx
      simp only [listTablesAt, List.mem_map, List.mem_filter] at hx
      obtain ⟨r, ⟨hr, hcond⟩, heq⟩ := hx
      cases heq
      simp only [Bool.and_eq_true, beq_iff_eq] at hcond
      simpa using htab r hr hcond.1 hcond.2
    rw [hfind2]

/-- C6 witness: looking up a missing schema and a missing table on the
example catalog yields the two errors. -/
theorem read_table_missing_name_errors_witness :
    read_table emptyTableClient emptyStore "missing_schema" "t" (some 1) none
        = Except.error (Err.schemaNotFound "missing_schema")
    ∧ read_table emptyTableClient emptyStore "s" "missing_table" (some 1) none
        = Except.error (Err.tableNotFound "missing_table") := by
  constructor
  · exact (read_table_missing_name_errors emptyTableClient emptyStore
      "missing_schema" "t" none 1).1 (by decide)
  · exact (read_table_missing_name_errors emptyTableClient emptyStore
      "s" "missing_table" none 1).2 1 "s" rfl (by decide)

/-! ## C4 -/

/-- C4: whenever `get_data_files` (at snapshot `s`) returns an entry with an
attached delete-file path, that path comes from a delete-file row whose
validity interval covers `s` and whose `data_file_id` references exactly the
data-file row the entry was built from; consequently a delete-file row whose
interval does not cover `s` is never attached. -/
theorem data_files_delete_join_validity (cat : Catalog) (tid : Nat) (s : Int)
    (df : DataFile) (hdf : df ∈ dataFilesAt cat tid s)
    (p : String) (hp : df.delete_file_path = some p) :
    ∃ d ∈ cat.data_files, ∃ del ∈ cat.delete_files,
      d.table_id = tid
      ∧ coversSnapshot s d.begin_snapshot d.end_snapshot = true
      ∧ df.data_file_path = d.path
      ∧ df.path_is_relative = d.path_is_relative
      ∧ del.data_file_id = d.data_file_id
      ∧ coversSnapshot s del.begin_snapshot del.end_snapshot = true
      ∧ del.path = p := by
  unfold dataFilesAt at hdf
  rw [List.mem_flatten] at hdf
  obtain ⟨l, hl, hdfl⟩ := hdf
  rw [List.mem_map] at hl
  obtain ⟨d, hd, rfl⟩ := hl
  have hd2 : d ∈ cat.data_files.filter (fun r =>
      r.table_id == tid && coversSnapshot s r.begin_snapshot r.end_snapshot) :=
    (List.perm_insertionSort _ _).subset hd
  rw [List.mem_filter] at hd2
  obtain ⟨hdmem, hdcond⟩ := hd2
  simp only [Bool.and_eq_true, beq_iff_eq] at hdcond
  unfold joinDeletes at hdfl
  cases hms : (activeDeleteRows cat s).filter
      (fun del => del.data_file_id == d.data_file_id) with
  | nil =>
    rw [hms] at hdfl
    simp only [List.mem_singleton] at hdfl
    subst hdfl
    simp at hp
  | cons a as =>
    rw [hms] at hdfl
    simp only [List.mem_map] at hdfl
    obtain ⟨del, hdel, rfl⟩ := hdfl
    have hdel2 : del ∈ (activeDeleteRows cat s).filter
        (fun del => del.data_file_id == d.data_file_id) := by
      rw [hms]; exact hdel
    rw [List.mem_filter] at hdel2
    obtain ⟨hdelmem, hdelid⟩ := hdel2
    unfold activeDeleteRows at hdelmem
    rw [List.mem_filter] at hdelmem
    obtain ⟨hdelmem2, hdelcov⟩ := hdelmem
    refine ⟨d, hdmem, del, hdelmem2, hdcond.1, hdcond.2, rfl, rfl, ?_, hdelcov, ?_⟩
    · simpa using hdelid
    · simpa using hp

/-- A catalog with one data file for table `t` carrying one delete file that
is valid from snapshot `2` on, and a second delete file row that is already
expired at snapshot `2`. -/
def deleteJoinCatalog : Catalog where
  snapshots := [1, 2]
  schemas := [{ schema_id := 1, schema_name := "s", begin_snapshot := 0, end_snapshot := none }]
  tables := [{ table_id := 1, table_name := "t", schema_id := 1,
               begin_snapshot := 0, end_snapshot := none }]
  columns := []
  data_files :=
    [{ data_file_id := 10, path := "f1.parquet", path_is_relative := true, table_id := 1,
       file_order := 1, begin_snapshot := 0, end_snapshot := none }]
  delete_files :=
    [{ data_file_id := 10, path := "old.parquet", path_is_relative := true,
       begin_snapshot := 0, end_snapshot := some 2 },
     { data_file_id := 10, path := "d1.parquet", path_is_relative := true,
       begin_snapshot := 2, end_snapshot := none }]

/-- C4 witness: at snapshot `2` the single returned entry carries
`d1.parquet`, and the theorem recovers the covering delete row. -/
theorem data_files_delete_join_validity_witness :
    ∃ d ∈ deleteJoinCatalog.data_files, ∃ del ∈ deleteJoinCatalog.delete_files,
      d.table_id = 1
      ∧ coversSnapshot 2 d.begin_snapshot d.end_snapshot = true
      ∧ (DataFile.mk "f1.parquet" (some "d1.parquet") true).data_file_path = d.path
      ∧ (DataFile.mk "f1.parquet" (some "d1.parquet") true).path_is_relative
          = d.path_is_relative
      ∧ del.data_file_id = d.data_file_id
      ∧ coversSnapshot 2 del.begin_snapshot del.end_snapshot = true
      ∧ del.path = "d1.parquet" :=
  data_files_delete_join_validity deleteJoinCatalog 1 2
    (DataFile.mk "f1.parquet" (some "d1.parquet") true) (by decide) "d1.parquet" rfl

end Ducklake

namespace Ducklake

/-! ## C9 -/

/-- Rewrite the relativity flag stored on every delete-file row of the
catalog (a field the client's SQL never selects). -/
def setDeleteRelFlags (cat : Catalog) (f : DeleteFileRow → Bool) : Catalog :=
  { cat with
    delete_files := cat.delete_files.map (fun r => { r with path_is_relative := f r }) }

/-- The valid-delete-rows subselect is unaffected by the delete rows'
relativity flags (beyond carrying them along). -/
theorem activeDeleteRows_setFlags (cat : Catalog) (f : DeleteFileRow → Bool) (s : Int) :
    activeDeleteRows (setDeleteRelFlags cat f) s
      = (activeDeleteRows cat s).map (fun r => { r with path_is_relative := f r }) := by
  have hdf : (setDeleteRelFlags cat f).delete_files
      = cat.delete_files.map (fun r => { r with path_is_relative := f r }) := rfl
  simp only [activeDeleteRows, hdf, List.filter_map]
  exact congrArg (List.map _) (List.filter_congr (fun x _ => rfl))

/-- The left join of one data-file row against the valid delete rows ignores
the delete rows' relativity flags. -/
theorem joinDeletes_setFlags (dels : List DeleteFileRow) (f : DeleteFileRow → Bool)
    (d : DataFileRow) :
    joinDeletes (dels.map (fun r => { r with path_is_relative := f r })) d
      = joinDeletes dels d := by
  unfold joinDeletes
  rw [List.filter_map]
  have hf : dels.filter ((fun del => del.data_file_id == d.data_file_id) ∘
        (fun r => { r with path_is_relative := f r }))
      = dels.filter (fun del => del.data_file_id == d.data_file_id) :=
    List.filter_congr (fun x _ => rfl)
  rw [hf]
  cases h : dels.filter (fun del => del.data_file_id == d.data_file_id) with
  | nil => rfl
  | cons a as =>
    simp only [List.map_cons, List.map_map]
    rfl

/-- `get_data_files`' rows are unaffected by the delete rows' relativity
flags. -/
theorem dataFilesAt_setFlags (cat : Catalog) (f : DeleteFileRow → Bool)
    (tid : Nat) (s : Int) :
    dataFilesAt (setDeleteRelFlags cat f) tid s = dataFilesAt cat tid s := by
  unfold dataFilesAt
  rw [activeDeleteRows_setFlags]
  have hdata : (setDeleteRelFlags cat f).data_files = cat.data_files := rfl
  rw [hdata]
  congr 1
  apply List.map_congr_left
  intro d _
  exact joinDeletes_setFlags (activeDeleteRows cat s) f d

/-- C9: a delete-file row contributes only its path to a read.  First, the
whole `read_table` result is invariant under an arbitrary rewrite of every
delete-file row's own relativity flag (that flag is never selected by the
client).  Second, the per-file read resolves the attached delete-file path
with the *data file's* `path_is_relative` flag — the same flag used for the
data path — so the delete path is treated as relative exactly when the
paired data file's path is. -/
theorem delete_row_contributes_only_path (c : DucklakeClient) (f : DeleteFileRow → Bool)
    (fs : FileStore) (sn tn : String) (s : Int) (cols : Option (List String)) :
    read_table { catalog := setDeleteRelFlags c.catalog f, data_path := c.data_path }
        fs sn tn (some s) cols
      = read_table c fs sn tn (some s) cols
    ∧ ∀ (tn2 sn2 : String) (cols2 : Option (List String)) (df : DataFile) (q : String),
        df.delete_file_path = some q →
        readOneFile c fs tn2 sn2 cols2 df =
          (match resolve_path c df.data_file_path df.path_is_relative tn2 sn2 with
           | Except.error e => Except.error e
           | Except.ok dpath =>
             match pqReadTable fs dpath cols2 with
             | Except.error e => Except.error e
             | Except.ok t =>
               match resolve_path c q df.path_is_relative tn2 sn2 with
               | Except.error e => Except.error e
               | Except.ok delpath =>
                 match read_delete_row_ids fs delpath with
                 | Except.error e => Except.error e
                 | Except.ok ids => Except.ok (filterDeleted t ids)) := by
  constructor
  · exact read_table_catalog_congr c
      { catalog := setDeleteRelFlags c.catalog f, data_path := c.data_path }
      rfl (fun _ => rfl) (fun _ _ => rfl) (fun _ _ => rfl)
      (fun tid s2 => dataFilesAt_setFlags c.catalog f tid s2) fs sn tn s cols
  · intro tn2 sn2 cols2 df q hq
    obtain ⟨dpath, delp, rel⟩ := df
    cases hq
    rfl

/-- The client used in the delete-file examples. -/
def badDeleteClient : DucklakeClient where
  catalog := deleteJoinCatalog
  data_path := some "/data"

/-- A store where the table's delete file decodes to a table without a
`pos` column. -/
def badDeleteStore : FileStore := fun p =>
  if p = "/data/s/t/f1.parquet" then
    some { names := ["a"], rows := [[Value.int 1], [Value.int 2]] }
  else if p = "/data/s/t/d1.parquet" then
    some { names := ["row_id"], rows := [[Value.int 0]] }
  else none

/-- C9 witness: flipping every delete row's flag to `false` leaves the read
result unchanged, and the per-file read of the example data file unfolds to
the chain resolving both paths with the data file's flag. -/
theorem delete_row_contributes_only_path_witness :
    read_table
        { catalog := setDeleteRelFlags badDeleteClient.catalog (fun _ => false),
          data_path := badDeleteClient.data_path }
        badDeleteStore "s" "t" (some 2) none
      = read_table badDeleteClient badDeleteStore "s" "t" (some 2) none
    ∧ readOneFile badDeleteClient badDeleteStore "t" "s" none
        (DataFile.mk "f1.parquet" (some "d1.parquet") true) =
      (match resolve_path badDeleteClient "f1.parquet" true "t" "s" with
       | Except.error e => Except.error e
       | Except.ok dpath =>
         match pqReadTable badDeleteStore dpath none with
         | Except.error e => Except.error e
         | Except.ok t =>
           match resolve_path badDeleteClient "d1.parquet" true "t" "s" with
           | Except.error e => Except.error e
           | Except.ok delpath =>
             match read_delete_row_ids badDeleteStore delpath with
             | Except.error e => Except.error e
             | Except.ok ids => Except.ok (filterDeleted t ids)) :=
  ⟨(delete_row_contributes_only_path badDeleteClient (fun _ => false)
      badDeleteStore "s" "t" 2 none).1,
   (delete_row_contributes_only_path badDeleteClient (fun _ => false)
      badDeleteStore "s" "t" 2 none).2
      "t" "s" none (DataFile.mk "f1.parquet" (some "d1.parquet") true) "d1.parquet" rfl⟩

/-! ## C10 -/

/-- A failing read of any file in the list makes the whole loop fail. -/
theorem readAllFiles_error_of_mem (c : DucklakeClient) (fs : FileStore) (tn sn : String)
    (cols : Option (List String)) :
    ∀ (l : List DataFile) (df : DataFile), df ∈ l →
      (∃ e, readOneFile c fs tn sn cols df = Except.error e) →
      ∃ e2, readAllFiles c fs tn sn cols l = Except.error e2
  | [], df, h, _ => absurd h (List.not_mem_nil df)
  | x :: xs, df, h, he => by
    cases hx : readOneFile c fs tn sn cols x with
    | error e => exact ⟨e, by simp only [readAllFiles, hx]⟩
    | ok t =>
      rcases List.mem_cons.mp h with rfl | hmem
      · obtain ⟨e, he2⟩ := he
        rw [hx] at he2
        cases he2
      · obtain ⟨e2, h2⟩ := readAllFiles_error_of_mem c fs tn sn cols xs df hmem he
        exact ⟨e2, by simp only [readAllFiles, hx, h2]⟩

/-- A data file whose attached delete file decodes to a table without a
`pos` column cannot be read. -/
theorem readOneFile_missing_pos (c : DucklakeClient) (fs : FileStore) (tn sn : String)
    (cols : Option (List String)) (dpath q rp : String) (rel : Bool)
    (hrp : resolve_path c q rel tn sn = Except.ok rp)
    (t : PaTable) (hfs : fs rp = some t) (hpos : columnIndex t "pos" = none) :
    ∃ e, readOneFile c fs tn sn cols (DataFile.mk dpath (some q) rel)
      = Except.error e := by
  have h3 : read_delete_row_ids fs rp = Except.error (Err.missingColumn "pos") := by
    simp only [read_delete_row_ids, pqReadTable, hfs, hpos]
  cases h1 : resolve_path c dpath rel tn sn with
  | error e => exact ⟨e, by simp only [readOneFile, h1]⟩
  | ok p1 =>
    cases h2 : pqReadTable fs p1 cols with
    | error e => exact ⟨e, by simp only [readOneFile, h1, h2]⟩
    | ok t1 =>
      exact ⟨Err.missingColumn "pos", by simp only [readOneFile, h1, h2, hrp, h3]⟩

/-- C10: the positions used to filter a data file are exactly the values of
the decoded delete file's column named `pos` (first two conjuncts), and a
delete file that decodes to a table with no `pos` column makes the whole
`read_table` call fail (third conjunct). -/
theorem delete_positions_pos_column (c : DucklakeClient) (fs : FileStore)
    (sn tn : String) (cols : Option (List String)) (s : Int) (sid tid : Nat)
    (nm nm2 : String)
    (hs : (listSchemasAt c.catalog s).find? (fun p => p.2 == sn) = some (sid, nm))
    (ht : (listTablesAt c.catalog sid s).find? (fun p => p.2 == tn) = some (tid, nm2))
    (df : DataFile) (hdf : df ∈ dataFilesAt c.catalog tid s)
    (q rp : String) (hq : df.delete_file_path = some q)
    (hrp : resolve_path c q df.path_is_relative tn sn = Except.ok rp)
    (t : PaTable) (hfs : fs rp = some t) (hpos : columnIndex t "pos" = none) :
    read_delete_row_ids fs rp = Except.error (Err.missingColumn "pos")
    ∧ (∀ (u : PaTable) (i : Nat) (path2 : String), fs path2 = some u →
        columnIndex u "pos" = some i →
        read_delete_row_ids fs path2
          = Except.ok (u.rows.map (fun r => r.getD i Value.null)))
    ∧ ∃ e, read_table c fs sn tn (some s) cols = Except.error e := by
  refine ⟨?_, ?_, ?_⟩
  · simp only [read_delete_row_ids, pqReadTable, hfs, hpos]
  · intro u i p2 hfs2 hpos2
    simp only [read_delete_row_ids, pqReadTable, hfs2, hpos2]
  · obtain ⟨dpath, delp, rel⟩ := df
    cases hq
    have hone : ∃ e, readOneFile c fs tn sn cols (DataFile.mk dpath (some q) rel)
        = Except.error e :=
      readOneFile_missing_pos c fs tn sn cols dpath q rp rel hrp t hfs hpos
    have hinner : ∃ e, read_table_inner c fs tid tn sn (some s) cols = Except.error e := by
      cases hl : dataFilesAt c.catalog tid s with
      | nil =>
        rw [hl] at hdf
        cases hdf
      | cons x xs =>
        rw [hl] at hdf
        obtain ⟨e2, h2⟩ := readAllFiles_error_of_mem c fs tn sn cols (x :: xs)
          (DataFile.mk dpath (some q) rel) hdf hone
        refine ⟨e2, ?_⟩
        simp only [read_table_inner, get_data_files, resolveSnapshot, hl, h2]
    obtain ⟨e, he⟩ := hinner
    refine ⟨e, ?_⟩
    rw [read_table_some_eq, hs]
    show (match (listTablesAt c.catalog sid s).find? (fun p => p.2 == tn) with
          | none => Except.error (Err.tableNotFound tn)
          | some (table_id, _) => read_table_inner c fs table_id tn sn (some s) cols)
        = Except.error e
    rw [ht]
    exact he

/-- C10 witness: on the example catalog at snapshot `2` the delete file
decodes to a table whose only column is `row_id`, and the whole read
fails. -/
theorem delete_positions_pos_column_witness :
    read_delete_row_ids badDeleteStore "/data/s/t/d1.parquet"
        = Except.error (Err.missingColumn "pos")
    ∧ (∀ (u : PaTable) (i : Nat) (path2 : String), badDeleteStore path2 = some u →
        columnIndex u "pos" = some i →
        read_delete_row_ids badDeleteStore path2
          = Except.ok (u.rows.map (fun r => r.getD i Value.null)))
    ∧ ∃ e, read_table badDeleteClient badDeleteStore "s" "t" (some 2) none
        = Except.error e :=
  delete_positions_pos_column badDeleteClient badDeleteStore "s" "t" none 2 1 1 "s" "t"
    rfl rfl (DataFile.mk "f1.parquet" (some "d1.parquet") true) (by decide)
    "d1.parquet" "/data/s/t/d1.parquet" rfl rfl
    { names := ["row_id"], rows := [[Value.int 0]] } rfl rfl

end Ducklake

namespace Ducklake

/-! ## C5 -/

/-- The rows a successful `concatStep` returns are the concatenation of the
input tables' rows, in order. -/
theorem concatStep_ok_rows (ts : List PaTable) (r : PaTable)
    (h : concatStep ts = Except.ok r) :
    r.rows = (ts.map PaTable.rows).flatten := by
  match ts with
  | [] => cases h
  | [t] =>
    cases h
    simp
  | t :: t2 :: rest =>
    simp only [concatStep, concat_tables] at h
    cases hall : (t2 :: rest).all (fun u => u.names == t.names) with
    | false => simp [hall] at h
    | true =>
      simp only [hall, if_true] at h
      cases h
      rfl

/-- C5: a successful `read_table` is the concatenation, in ascending
`file_order`, of the per-file (post-delete) tables: the data-file rows are a
permutation of the valid rows sorted by `file_order` (ties in either order),
`get_data_files` is their join against the valid delete rows in that order,
and the result's rows are the flattening of the per-file tables' rows in
that same order. -/
theorem read_table_concat_file_order (c : DucklakeClient) (fs : FileStore)
    (sn tn : String) (cols : Option (List String)) (s : Int) (sid tid : Nat)
    (nm nm2 : String)
    (hs : (listSchemasAt c.catalog s).find? (fun p => p.2 == sn) = some (sid, nm))
    (ht : (listTablesAt c.catalog sid s).find? (fun p => p.2 == tn) = some (tid, nm2))
    (result : PaTable)
    (hok : read_table c fs sn tn (some s) cols = Except.ok result)
    (hne : dataFilesAt c.catalog tid s ≠ []) :
    (∃ sorted : List DataFileRow,
        sorted.Perm (c.catalog.data_files.filter (fun r =>
          r.table_id == tid && coversSnapshot s r.begin_snapshot r.end_snapshot))
        ∧ sorted.Pairwise (fun a b => a.file_order ≤ b.file_order)
        ∧ dataFilesAt c.catalog tid s
            = (sorted.map (joinDeletes (activeDeleteRows c.catalog s))).flatten)
    ∧ ∃ ts : List PaTable,
        readAllFiles c fs tn sn cols (dataFilesAt c.catalog tid s) = Except.ok ts
        ∧ result.rows = (ts.map PaTable.rows).flatten := by
  constructor
  · have hperm := List.perm_insertionSort
      (fun (a b : DataFileRow) => a.file_order ≤ b.file_order)
      (c.catalog.data_files.filter (fun r =>
        r.table_id == tid && coversSnapshot s r.begin_snapshot r.end_snapshot))
    refine ⟨_, hperm, ?_, rfl⟩
    exact @List.sorted_insertionSort DataFileRow (fun a b => a.file_order ≤ b.file_order) _
      ⟨fun a b => Nat.le_total a.file_order b.file_order⟩
      ⟨fun a b d hab hbd => Nat.le_trans hab hbd⟩ _
  · simp only [read_table_some_eq, hs, ht] at hok
    simp only [read_table_inner, get_data_files, resolveSnapshot] at hok
    cases hl : dataFilesAt c.catalog tid s with
    | nil => exact absurd hl hne
    | cons x xs =>
      simp only [hl] at hok
      cases hra : readAllFiles c fs tn sn cols (x :: xs) with
      | error e => simp [hra] at hok
      | ok ts =>
        simp only [hra] at hok
        exact ⟨ts, rfl, concatStep_ok_rows ts result hok⟩

/-- A catalog with two data files for the table, with `file_order` 2 and 1,
the first-ordered one carrying a delete file valid from snapshot `2`. -/
def multiFileCatalog : Catalog where
  snapshots := [1, 2]
  schemas := [{ schema_id := 1, schema_name := "s", begin_snapshot := 0, end_snapshot := none }]
  tables := [{ table_id := 1, table_name := "t", schema_id := 1,
               begin_snapshot := 0, end_snapshot := none }]
  columns := []
  data_files :=
    [{ data_file_id := 11, path := "f2.parquet", path_is_relative := true, table_id := 1,
       file_order := 2, begin_snapshot := 0, end_snapshot := none },
     { data_file_id := 10, path := "f1.parquet", path_is_relative := true, table_id := 1,
       file_order := 1, begin_snapshot := 0, end_snapshot := none }]
  delete_files :=
    [{ data_file_id := 10, path := "d1.parquet", path_is_relative := true,
       begin_snapshot := 2, end_snapshot := none }]

/-- The client over `multiFileCatalog`. -/
def multiFileClient : DucklakeClient where
  catalog := multiFileCatalog
  data_path := some "/data"

/-- The files on disk for the multi-file example: `f1` with three rows and a
delete file removing its position `1`, `f2` with one row. -/
def multiFileStore : FileStore := fun p =>
  if p = "/data/s/t/f1.parquet" then
    some { names := ["a", "b"],
           rows := [[Value.int 1, Value.str "x"], [Value.int 2, Value.str "y"],
                    [Value.int 3, Value.str "z"]] }
  else if p = "/data/s/t/d1.parquet" then
    some { names := ["file_path", "pos"], rows := [[Value.str "f1", Value.int 1]] }
  else if p = "/data/s/t/f2.parquet" then
    some { names := ["a", "b"], rows := [[Value.int 4, Value.str "w"]] }
  else none

/-- C5 witness: the two-file example at snapshot `2`; `f1`'s surviving rows
precede `f2`'s row. -/
theorem read_table_concat_file_order_witness :
    (∃ sorted : List DataFileRow,
        sorted.Perm (multiFileCatalog.data_files.filter (fun r =>
          r.table_id == 1 && coversSnapshot 2 r.begin_snapshot r.end_snapshot))
        ∧ sorted.Pairwise (fun a b => a.file_order ≤ b.file_order)
        ∧ dataFilesAt multiFileCatalog 1 2
            = (sorted.map (joinDeletes (activeDeleteRows multiFileCatalog 2))).flatten)
    ∧ ∃ ts : List PaTable,
        readAllFiles multiFileClient multiFileStore "t" "s" none
            (dataFilesAt multiFileCatalog 1 2)
          = Except.ok ts
        ∧ (PaTable.mk ["a", "b"]
            [[Value.int 1, Value.str "x"], [Value.int 3, Value.str "z"],
             [Value.int 4, Value.str "w"]]).rows
            = (ts.map PaTable.rows).flatten :=
  read_table_concat_file_order multiFileClient multiFileStore "s" "t" none 2 1 1 "s" "t"
    rfl rfl
    (PaTable.mk ["a", "b"]
      [[Value.int 1, Value.str "x"], [Value.int 3, Value.str "z"],
       [Value.int 4, Value.str "w"]])
    rfl (by decide)

end Ducklake

namespace Ducklake

/-! ## C8 -/

/-- Column-index resolution depends only on the table's column names. -/
theorem columnIndices_congr (t1 t2 : PaTable) (h : t1.names = t2.names) :
    ∀ cs, columnIndices t1 cs = columnIndices t2 cs
  | [] => rfl
  | n :: ns => by
    have hci : columnIndex t1 n = columnIndex t2 n := by
      unfold columnIndex
      rw [h]
    simp only [columnIndices, hci, columnIndices_congr t1 t2 h ns]

/-- A successful projection returns exactly the requested names. -/
theorem selectColumns_names (t tp : PaTable) (cs : List String)
    (h : selectColumns t cs = Except.ok tp) : tp.names = cs := by
  unfold selectColumns at h
  cases hci : columnIndices t cs with
  | error e =>
    simp only [hci] at h
    cases h
  | ok idxs =>
    simp only [hci] at h
    cases h
    rfl

/-- Shape of a successful projection. -/
theorem selectColumns_ok_inv (t tp : PaTable) (cs : List String)
    (h : selectColumns t cs = Except.ok tp) :
    ∃ idxs, columnIndices t cs = Except.ok idxs
      ∧ tp = { names := cs,
               rows := t.rows.map (fun r => idxs.map (fun i => r.getD i Value.null)) } := by
  unfold selectColumns at h
  cases hci : columnIndices t cs with
  | error e =>
    simp only [hci] at h
    cases h
  | ok idxs =>
    simp only [hci] at h
    cases h
    exact ⟨idxs, rfl, rfl⟩

/-- Mask filtering commutes with a per-row map. -/
theorem zip_filterMap_map (f : List Value → List Value) :
    ∀ (l : List (List Value)) (ks : List Bool),
      ((l.map f).zip ks).filterMap (fun p => if p.2 then some p.1 else none)
        = ((l.zip ks).filterMap (fun p => if p.2 then some p.1 else none)).map f
  | [], _ => rfl
  | _ :: _, [] => rfl
  | x :: xs, k :: ks => by
    simp only [List.map_cons, List.zip_cons_cons, List.filterMap_cons]
    cases k with
    | false => simpa using zip_filterMap_map f xs ks
    | true => simpa using zip_filterMap_map f xs ks

/-- Projection commutes with the positional delete filter. -/
theorem selectColumns_filterDeleted (t tp : PaTable) (cs : List String)
    (ids : List Value) (h : selectColumns t cs = Except.ok tp) :
    selectColumns (filterDeleted t ids) cs = Except.ok (filterDeleted tp ids) := by
  obtain ⟨idxs, hidxs, rfl⟩ := selectColumns_ok_inv t tp cs h
  have hcongr : columnIndices (filterDeleted t ids) cs = columnIndices t cs :=
    columnIndices_congr (filterDeleted t ids) t rfl cs
  simp only [selectColumns, hcongr, hidxs]
  simp only [filterDeleted, List.length_map]
  exact congrArg Except.ok (congrArg (PaTable.mk cs)
    (zip_filterMap_map (fun r => idxs.map (fun i => r.getD i Value.null)) t.rows _).symm)

/-- A projected per-file read is the projection of the unprojected per-file
read (the delete filter acts on positions, which projection preserves). -/
theorem readOneFile_project (c : DucklakeClient) (fs : FileStore) (tn sn : String)
    (cs : List String) (df : DataFile) (tf tp : PaTable)
    (hf : readOneFile c fs tn sn none df = Except.ok tf)
    (hp : readOneFile c fs tn sn (some cs) df = Except.ok tp) :
    selectColumns tf cs = Except.ok tp := by
  cases h1 : resolve_path c df.data_file_path df.path_is_relative tn sn with
  | error e => simp [readOneFile, h1] at hf
  | ok p1 =>
    cases h2 : fs p1 with
    | none => simp [readOneFile, pqReadTable, h1, h2] at hf
    | some t0 =>
      simp only [readOneFile, pqReadTable, h1, h2] at hf hp
      cases h3 : selectColumns t0 cs with
      | error e => simp [h3] at hp
      | ok tp0 =>
        simp only [h3] at hp
        cases hdel : df.delete_file_path with
        | none =>
          simp only [hdel] at hf hp
          cases hf
          cases hp
          exact h3
        | some dp =>
          simp only [hdel] at hf hp
          cases h4 : resolve_path c dp df.path_is_relative tn sn with
          | error e => simp [h4] at hf
          | ok rp =>
            simp only [h4] at hf hp
            cases h5 : read_delete_row_ids fs rp with
            | error e => simp [h5] at hf
            | ok ids =>
              simp only [h5] at hf hp
              cases hf
              cases hp
              exact selectColumns_filterDeleted t0 tp0 cs ids h3

/-- The projected file loop succeeds together with the unprojected one, file
by file, each projected table being the projection of its unprojected
counterpart. -/
theorem readAllFiles_project (c : DucklakeClient) (fs : FileStore) (tn sn : String)
    (cs : List String) :
    ∀ (l : List DataFile) (tsF tsP : List PaTable),
      readAllFiles c fs tn sn none l = Except.ok tsF →
      readAllFiles c fs tn sn (some cs) l = Except.ok tsP →
      List.Forall₂ (fun a b => selectColumns a cs = Except.ok b) tsF tsP
  | [], tsF, tsP, hF, hP => by
    cases hF
    cases hP
    exact List.Forall₂.nil
  | x :: xs, tsF, tsP, hF, hP => by
    cases h1 : readOneFile c fs tn sn none x with
    | error e => simp [readAllFiles, h1] at hF
    | ok t1 =>
      cases h2 : readAllFiles c fs tn sn none xs with
      | error e => simp [readAllFiles, h1, h2] at hF
      | ok ts1 =>
        simp only [readAllFiles, h1, h2] at hF
        cases hF
        cases h3 : readOneFile c fs tn sn (some cs) x with
        | error e => simp [readAllFiles, h3] at hP
        | ok t2 =>
          cases h4 : readAllFiles c fs tn sn (some cs) xs with
          | error e => simp [readAllFiles, h3, h4] at hP
          | ok ts2 =>
            simp only [readAllFiles, h3, h4] at hP
            cases hP
            exact List.Forall₂.cons
              (readOneFile_project c fs tn sn cs x t1 t2 h1 h3)
              (readAllFiles_project c fs tn sn cs xs ts1 ts2 h2 h4)

/-- Under a common reference name list, the projected tables' rows are the
per-table projections of the unprojected tables' rows. -/
theorem forall₂_rows_map (cs : List String) (idxs : List Nat) (nm : List String)
    (hidx : ∀ t : PaTable, t.names = nm → columnIndices t cs = Except.ok idxs)
    {tsF tsP : List PaTable}
    (h : List.Forall₂ (fun a b => selectColumns a cs = Except.ok b) tsF tsP)
    (hnm : ∀ a ∈ tsF, a.names = nm) :
    tsP.map PaTable.rows
      = tsF.map (fun a => a.rows.map (fun r => idxs.map (fun i => r.getD i Value.null))) := by
  induction h with
  | nil => rfl
  | cons hab htail ih =>
    rename_i a b as bs
    obtain ⟨idxs2, hidxs2, rfl⟩ := selectColumns_ok_inv a b cs hab
    have ha : a.names = nm := hnm a (List.mem_cons_self a as)
    have hsame := hidx a ha
    rw [hidxs2] at hsame
    cases hsame
    simp only [List.map_cons]
    rw [ih (fun x hx => hnm x (List.mem_cons_of_mem a hx))]

/-- Projection passes through the concatenation step: if the projected and
unprojected table lists concatenate successfully and correspond pointwise by
projection, the projected concatenation has the requested names and is the
projection of the unprojected concatenation. -/
theorem concatStep_project (cs : List String) (tsF tsP : List PaTable) (tA tP : PaTable)
    (h₂ : List.Forall₂ (fun a b => selectColumns a cs = Except.ok b) tsF tsP)
    (hA : concatStep tsF = Except.ok tA)
    (hP : concatStep tsP = Except.ok tP) :
    tP.names = cs ∧ selectColumns tA cs = Except.ok tP := by
  cases h₂ with
  | nil => cases hA
  | cons hab htail =>
    rename_i a b as bs
    cases htail with
    | nil =>
      cases hA
      cases hP
      exact ⟨selectColumns_names _ _ cs hab, hab⟩
    | cons hab2 htail2 =>
      rename_i a2 b2 as2 bs2
      simp only [concatStep, concat_tables] at hA hP
      split at hA
      next hallF =>
        split at hP
        next hallP =>
          cases hA
          cases hP
          obtain ⟨idxs, hidxs, rfl⟩ := selectColumns_ok_inv a b cs hab
          have hnm : ∀ x ∈ a :: a2 :: as2, x.names = a.names := by
            intro x hx
            rcases List.mem_cons.mp hx with rfl | hx2
            · rfl
            · have hx3 := List.all_eq_true.mp hallF x hx2
              simpa using hx3
          have hidx : ∀ t : PaTable, t.names = a.names →
              columnIndices t cs = Except.ok idxs := by
            intro t htn
            rw [columnIndices_congr t a htn, hidxs]
          have hrows := forall₂_rows_map cs idxs a.names hidx
            (List.Forall₂.cons hab (List.Forall₂.cons hab2 htail2)) hnm
          constructor
          · rfl
          · have h1 : columnIndices
                (PaTable.mk a.names (((a :: a2 :: as2).map PaTable.rows).flatten)) cs
                = Except.ok idxs := hidx _ rfl
            simp only [selectColumns, h1]
            refine congrArg Except.ok (congrArg (PaTable.mk cs) ?_)
            rw [List.map_flatten, List.map_map, hrows]
            rfl
        next hallP => cases hP
      next hallF => cases hA

/-- C8 (amended): whenever both the projected and the unprojected
`read_table` at the same snapshot succeed (with a non-empty projection
list), the projected result has exactly the requested columns in the
requested order and its values are the restriction of the unprojected
result to those columns. -/
theorem read_table_projection_restriction (c : DucklakeClient) (fs : FileStore)
    (sn tn : String) (s : Int) (cs : List String) (hcs : cs ≠ [])
    (tAll tProj : PaTable)
    (hAll : read_table c fs sn tn (some s) none = Except.ok tAll)
    (hProj : read_table c fs sn tn (some s) (some cs) = Except.ok tProj) :
    tProj.names = cs ∧ selectColumns tAll cs = Except.ok tProj := by
  rw [read_table_some_eq] at hAll hProj
  cases hfs1 : (listSchemasAt c.catalog s).find? (fun p => p.2 == sn) with
  | none => simp [hfs1] at hAll
  | some sp =>
    obtain ⟨sid, nm⟩ := sp
    simp only [hfs1] at hAll hProj
    cases hft : (listTablesAt c.catalog sid s).find? (fun p => p.2 == tn) with
    | none => simp [hft] at hAll
    | some tp2 =>
      obtain ⟨tid, nm2⟩ := tp2
      simp only [hft] at hAll hProj
      simp only [read_table_inner, get_data_files, resolveSnapshot] at hAll hProj
      cases hl : dataFilesAt c.catalog tid s with
      | nil =>
        simp only [hl] at hProj
        cases cs with
        | nil => exact absurd rfl hcs
        | cons c1 crest => simp [emptyTableResult] at hProj
      | cons x xs =>
        simp only [hl] at hAll hProj
        cases hraF : readAllFiles c fs tn sn none (x :: xs) with
        | error e => simp [hraF] at hAll
        | ok tsF =>
          simp only [hraF] at hAll
          cases hraP : readAllFiles c fs tn sn (some cs) (x :: xs) with
          | error e => simp [hraP] at hProj
          | ok tsP =>
            simp only [hraP] at hProj
            exact concatStep_project cs tsF tsP tAll tProj
              (readAllFiles_project c fs tn sn cs (x :: xs) tsF tsP hraF hraP)
              hAll hProj

/-- C8 counterexample: on a table with no data files the projected read does
not return a projected table at all — it raises the empty-branch
`UnboundLocalError` — while the unprojected read at the same snapshot
succeeds with a zero-row table, so the claim fails as stated for every
table/snapshot. -/
theorem projection_empty_table_counterexample :
    read_table emptyTableClient emptyStore "s" "t" (some 1) (some ["a", "b"])
        = Except.error (Err.unboundLocalVar "table_columns")
    ∧ read_table emptyTableClient emptyStore "s" "t" (some 1) none
        = Except.ok { names := ["a", "b"], rows := [] } :=
  ⟨rfl, rfl⟩

/-- C8 witness: projecting the two-file example onto `["b", "a"]` returns
those columns in that order with the values of the unprojected read. -/
theorem read_table_projection_restriction_witness :
    (PaTable.mk ["b", "a"]
      [[Value.str "x", Value.int 1], [Value.str "z", Value.int 3],
       [Value.str "w", Value.int 4]]).names = ["b", "a"]
    ∧ selectColumns
        (PaTable.mk ["a", "b"]
          [[Value.int 1, Value.str "x"], [Value.int 3, Value.str "z"],
           [Value.int 4, Value.str "w"]]) ["b", "a"]
      = Except.ok (PaTable.mk ["b", "a"]
          [[Value.str "x", Value.int 1], [Value.str "z", Value.int 3],
           [Value.str "w", Value.int 4]]) :=
  read_table_projection_restriction multiFileClient multiFileStore "s" "t" 2
    ["b", "a"] (by decide)
    (PaTable.mk ["a", "b"]
      [[Value.int 1, Value.str "x"], [Value.int 3, Value.str "z"],
       [Value.int 4, Value.str "w"]])
    (PaTable.mk ["b", "a"]
      [[Value.str "x", Value.int 1], [Value.str "z", Value.int 3],
       [Value.str "w", Value.int 4]])
    rfl rfl

end Ducklake
